import Mathlib

/-!
Verification of the Classical Laminate Theory engine
(`structlib/classical_laminate.py`, class `LaminateAnalysis`).

The Python code works over floating-point numbers; we embed it over the
real numbers `ℝ`, with 3×3 matrices as `Matrix (Fin 3) (Fin 3) ℝ` and the
6×6 ABD operator built with `Matrix.fromBlocks` (the embedding of
`np.block([[A, B], [B, D]])`).  Python exceptions are embedded as an
`Except PyErr` result: a plain-Python float division by zero raises
`ZeroDivisionError`, an out-of-range list/array subscript raises
`IndexError`, and `np.linalg.solve` on a singular matrix raises
`numpy.linalg.LinAlgError` ("Singular matrix").  Python (and numpy)
subscripts accept negative indices counting from the end of the sequence;
`pyGet` reproduces that rule.
-/

open Matrix Real

abbrev M3 := Matrix (Fin 3) (Fin 3) ℝ

abbrev V3 := Fin 3 → ℝ

/-- The material-property dictionary consumed by `LaminateAnalysis.__init__`:
entries `E11`, `E22`, `G12`, `V12`. -/
structure MaterialProperties where
  E11 : ℝ
  E22 : ℝ
  G12 : ℝ
  V12 : ℝ

/-- The Python exceptions the embedded code can raise. -/
inductive PyErr where
  | zeroDivisionError
  | indexError
  | singularMatrix
  deriving DecidableEq

/-- Embeds `self.V21 = self.V12 * self.E22 / self.E11` (init, line 41). -/
noncomputable def calc_V21 (m : MaterialProperties) : ℝ :=
  m.V12 * m.E22 / m.E11

/-- Embeds `_calculate_Q`: the reduced stiffness matrix `Q` (lines 60–66). -/
noncomputable def calculate_Q (m : MaterialProperties) : M3 :=
  let V21 := calc_V21 m
  Matrix.of
    ![![m.E11 / (1 - m.V12 * V21), V21 * m.E11 / (1 - m.V12 * V21), 0],
      ![m.V12 * m.E22 / (1 - m.V12 * V21), m.E22 / (1 - m.V12 * V21), 0],
      ![0, 0, m.G12]]

/-- The loop body of `_calculate_z_coordinates` (lines 74–78): starting from
`current_z`, each ply contributes `z = current_z + t` and
`z_m = current_z + t/2`, then advances `current_z` by `t`.  Returns the pair
of lists `(z, z_m)`. -/
noncomputable def zLoop : List ℝ → ℝ → List ℝ × List ℝ
  | [], _ => ([], [])
  | t :: rest, cur =>
    let tail := zLoop rest (cur + t)
    ((cur + t) :: tail.1, (cur + t / 2) :: tail.2)

/-- Embeds `_calculate_z_coordinates` (lines 68–80): `current_z` starts at
`-t_total/2` where `t_total = np.sum(self.t)` sums the whole thickness
array; the loop runs over `range(self.k)` and subscripts `self.t[i]`, so it
raises `IndexError` when the thickness array is shorter than the angle
list, and ignores thicknesses beyond index `k - 1`. -/
noncomputable def calculate_z_coordinates (t : List ℝ) (k : ℕ) :
    Except PyErr (List ℝ × List ℝ) :=
  if t.length < k then .error .indexError
  else .ok (zLoop (t.take k) (-(t.sum) / 2))

/-- The stress transform `T` of `_calculate_transformation` (lines 87–91). -/
noncomputable def Tmat (θ : ℝ) : M3 :=
  let c := Real.cos θ
  let s := Real.sin θ
  Matrix.of
    ![![c ^ 2, s ^ 2, 2 * s * c],
      ![s ^ 2, c ^ 2, -2 * s * c],
      ![-s * c, s * c, c ^ 2 - s ^ 2]]

/-- The strain transform `T_e` of `_calculate_transformation` (lines 93–97). -/
noncomputable def Temat (θ : ℝ) : M3 :=
  let c := Real.cos θ
  let s := Real.sin θ
  Matrix.of
    ![![c ^ 2, s ^ 2, s * c],
      ![s ^ 2, c ^ 2, -s * c],
      ![-2 * s * c, 2 * s * c, c ^ 2 - s ^ 2]]

/-- Embeds `Q_bar = np.linalg.inv(T) @ Q @ T_e` (line 99). -/
noncomputable def Q_bar_of (θ : ℝ) (Q : M3) : M3 :=
  (Tmat θ)⁻¹ * Q * Temat θ

/-- The loop body of `_calculate_ABD_matrices` (lines 110–113) at a fixed
index pair `(i, j)`: each ply is a triple `(Q_bar_ply, t_ply, z_ply)` and
the accumulator carries the three running sums `(A[i,j], B[i,j], D[i,j])`. -/
noncomputable def abdStep (i j : Fin 3) (acc : ℝ × ℝ × ℝ) (p : M3 × ℝ × ℝ) :
    ℝ × ℝ × ℝ :=
  (acc.1 + p.1 i j * p.2.1,
   acc.2.1 + 0.5 * p.1 i j * (p.2.2 ^ 2 - (p.2.2 - p.2.1) ^ 2),
   acc.2.2 + (1 / 3) * p.1 i j * (p.2.2 ^ 3 - (p.2.2 - p.2.1) ^ 3))

/-- The per-ply accumulation of `_calculate_ABD_matrices` (lines 108–113) at
a fixed index pair `(i, j)`, starting from zeros. -/
noncomputable def abdEntry (plies : List (M3 × ℝ × ℝ)) (i j : Fin 3) : ℝ × ℝ × ℝ :=
  plies.foldl (abdStep i j) (0, 0, 0)

/-- Embeds `_calculate_ABD_matrices` (lines 102–115): assembles `A`, `B`, `D` from
the per-ply data `(Q_bar_ply, t_ply, z_ply)`. -/
noncomputable def calculate_ABD_matrices (plies : List (M3 × ℝ × ℝ)) :
    M3 × M3 × M3 :=
  (Matrix.of fun i j => (abdEntry plies i j).1,
   Matrix.of fun i j => (abdEntry plies i j).2.1,
   Matrix.of fun i j => (abdEntry plies i j).2.2)

/-- Embeds `calculate_response` (lines 117–147): builds the 6×6
`np.block([[A, B], [B, D]])`, solves `abd · x = load` with
`np.linalg.solve` (raising `LinAlgError` on a singular matrix), and splits
the solution into its first three components (midplane strains) and last
three components (curvatures). -/
noncomputable def calculate_response (A B D : M3) (forces moments : V3) :
    Except PyErr (V3 × V3) :=
  let abd := Matrix.fromBlocks A B B D
  let load := Sum.elim forces moments
  if abd.det = 0 then .error .singularMatrix
  else
    let x := abd⁻¹ *ᵥ load
    .ok (fun i => x (Sum.inl i), fun i => x (Sum.inr i))

/-- Python sequence subscripting `l[i]`: indices `0 ≤ i < len` address from
the front, `-len ≤ i < 0` address from the back, anything else raises
`IndexError`. -/
def pyGet {α : Type} (l : List α) (i : ℤ) : Except PyErr α :=
  if h : 0 ≤ i ∧ i < (l.length : ℤ) then
    .ok (l.get ⟨i.toNat, by omega⟩)
  else if h2 : -(l.length : ℤ) ≤ i ∧ i < 0 then
    .ok (l.get ⟨(i + l.length).toNat, by omega⟩)
  else .error .indexError

/-- Embeds `calculate_ply_strains_stresses` (lines 149–184), as a function of the
per-ply state carried by `self` (`self.z_m`, `self.Q_bar`, `self.T_e`,
`self.T`): subtracts 1 from the 1-based `ply_number` and subscripts the
four per-ply sequences at that Python index, in the source's access
order. -/
noncomputable def calculate_ply_strains_stresses
    (z_m : List ℝ) (Q_bar T T_e : List M3)
    (midplane_strains curvatures : V3) (ply_number : ℤ) :
    Except PyErr (V3 × V3 × V3 × V3) := do
  let ply_idx := ply_number - 1
  let zm ← pyGet z_m ply_idx
  let Qb ← pyGet Q_bar ply_idx
  let global_strain := midplane_strains + zm • curvatures
  let global_stress := Qb *ᵥ global_strain
  let Te ← pyGet T_e ply_idx
  let local_strain := Te *ᵥ global_strain
  let Tp ← pyGet T ply_idx
  let local_stress := Tp *ᵥ global_stress
  return (global_strain, global_stress, local_strain, local_stress)

/-- The `thicknesses` argument of `__init__`: a bare number or a list. -/
inductive ThickArg where
  | scalar (c : ℝ)
  | ofList (l : List ℝ)

/-- The state a `LaminateAnalysis` instance carries after `__init__`. -/
structure LaminateAnalysis where
  angles : List ℝ
  theta : List ℝ
  t : List ℝ
  k : ℕ
  E11 : ℝ
  E22 : ℝ
  G12 : ℝ
  V12 : ℝ
  V21 : ℝ
  Q : M3
  z : List ℝ
  z_m : List ℝ
  T : List M3
  T_e : List M3
  Q_bar : List M3
  A : M3
  B : M3
  D : M3

/-- Embeds `LaminateAnalysis.__init__` (lines 12–58): converts angles to radians,
broadcasts a scalar `thicknesses` to `np.full(len(self.angles), ...)`,
derives `V21` and `Q` (each a float division that raises
`ZeroDivisionError` on a zero divisor), computes z-coordinates, the per-ply
transforms, and the A, B, D matrices.  No layup validation is performed. -/
noncomputable def initLaminateAnalysis (layup_angles : List ℝ)
    (thicknesses : ThickArg) (m : MaterialProperties) :
    Except PyErr LaminateAnalysis :=
  let theta := layup_angles.map (fun a => a * Real.pi / 180)
  let k := layup_angles.length
  let t := match thicknesses with
    | .scalar c => List.replicate k c
    | .ofList l => l
  if m.E11 = 0 then .error .zeroDivisionError
  else
    let V21 := calc_V21 m
    if 1 - m.V12 * V21 = 0 then .error .zeroDivisionError
    else
      let Q := calculate_Q m
      match calculate_z_coordinates t k with
      | .error e => .error e
      | .ok zz =>
        let Ts := theta.map Tmat
        let Tes := theta.map Temat
        let Qbars := theta.map (fun th => Q_bar_of th Q)
        let abd := calculate_ABD_matrices (Qbars.zip ((t.take k).zip zz.1))
        .ok ⟨layup_angles, theta, t, k, m.E11, m.E22, m.G12, m.V12, V21, Q,
             zz.1, zz.2, Ts, Tes, Qbars, abd.1, abd.2.1, abd.2.2⟩

/-! ### Helper lemmas -/

lemma abdEntry_foldl (i j : Fin 3) (plies : List (M3 × ℝ × ℝ)) :
    ∀ a b d : ℝ,
      plies.foldl (abdStep i j) (a, b, d) =
        (a + (plies.map (fun p => p.1 i j * p.2.1)).sum,
         b + (plies.map
              (fun p => 0.5 * p.1 i j * (p.2.2 ^ 2 - (p.2.2 - p.2.1) ^ 2))).sum,
         d + (plies.map
              (fun p => (1 / 3) * p.1 i j * (p.2.2 ^ 3 - (p.2.2 - p.2.1) ^ 3))).sum) := by
  induction plies with
  | nil => intro a b d; simp
  | cons p rest ih =>
    intro a b d
    simp only [List.foldl_cons, List.map_cons, List.sum_cons, abdStep, ih]
    refine Prod.ext ?_ (Prod.ext ?_ ?_) <;> dsimp <;> ring

lemma Temat_transpose (θ : ℝ) :
    (Temat θ)ᵀ =
      Matrix.of
        ![![Real.cos θ ^ 2, Real.sin θ ^ 2, -2 * Real.sin θ * Real.cos θ],
          ![Real.sin θ ^ 2, Real.cos θ ^ 2, 2 * Real.sin θ * Real.cos θ],
          ![Real.sin θ * Real.cos θ, -(Real.sin θ * Real.cos θ),
            Real.cos θ ^ 2 - Real.sin θ ^ 2]] := by
  ext i j
  fin_cases i <;> fin_cases j <;>
    simp [Temat, Matrix.transpose_apply]

lemma Tmat_mul_Temat_transpose (θ : ℝ) : Tmat θ * (Temat θ)ᵀ = 1 := by
  rw [Temat_transpose]
  ext i j
  fin_cases i <;> fin_cases j <;>
    simp [Tmat, Matrix.mul_apply, Fin.sum_univ_three, Matrix.one_apply,
      Matrix.vecHead, Matrix.vecTail, Fin.ext_iff] <;>
    first
      | ring1
      | linear_combination (Real.sin θ ^ 2 + Real.cos θ ^ 2 + 1) *
          Real.sin_sq_add_cos_sq θ

lemma Temat_transpose_mul_Tmat (θ : ℝ) : (Temat θ)ᵀ * Tmat θ = 1 := by
  rw [Temat_transpose]
  ext i j
  fin_cases i <;> fin_cases j <;>
    simp [Tmat, Matrix.mul_apply, Fin.sum_univ_three, Matrix.one_apply,
      Matrix.vecHead, Matrix.vecTail, Fin.ext_iff] <;>
    first
      | ring1
      | linear_combination (Real.sin θ ^ 2 + Real.cos θ ^ 2 + 1) *
          Real.sin_sq_add_cos_sq θ

lemma Tmat_inv (θ : ℝ) : (Tmat θ)⁻¹ = (Temat θ)ᵀ :=
  Matrix.inv_eq_right_inv (Tmat_mul_Temat_transpose θ)

lemma Tmat_zero : Tmat 0 = 1 := by
  ext i j
  fin_cases i <;> fin_cases j <;>
    norm_num [Tmat, Matrix.one_apply, Matrix.vecHead, Matrix.vecTail, Fin.ext_iff]

lemma Temat_zero : Temat 0 = 1 := by
  ext i j
  fin_cases i <;> fin_cases j <;>
    norm_num [Temat, Matrix.one_apply, Matrix.vecHead, Matrix.vecTail, Fin.ext_iff]

lemma Q_bar_of_zero (Q : M3) : Q_bar_of 0 Q = Q := by
  rw [Q_bar_of, Tmat_zero, Temat_zero, inv_one, Matrix.mul_one, Matrix.one_mul]

lemma calculate_Q_symm (m : MaterialProperties) (hE : m.E11 ≠ 0) :
    (calculate_Q m)ᵀ = calculate_Q m := by
  ext i j
  fin_cases i <;> fin_cases j <;>
    simp [calculate_Q, calc_V21, Matrix.transpose_apply] <;>
    field_simp

lemma Tmat_mul_Q_bar (θ : ℝ) (Q : M3) :
    Tmat θ * Q_bar_of θ Q = Q * Temat θ := by
  rw [Q_bar_of, Tmat_inv, ← Matrix.mul_assoc, ← Matrix.mul_assoc,
    Tmat_mul_Temat_transpose, Matrix.one_mul]

/-! ### Claim theorems (first batch) -/

/-- C1: for every laminate with k plies, `A[i,j]` is the sum over plies of
`Q̄_ply[i,j]·t_ply`, `B[i,j]` is half the sum over plies of
`Q̄_ply[i,j]·(z_top² − (z_top − t)²)`, and `D[i,j]` is a third of the sum
over plies of `Q̄_ply[i,j]·(z_top³ − (z_top − t)³)`, exactly the per-ply
expansion around `z_top` that `_calculate_ABD_matrices` accumulates. -/
theorem abd_per_ply_expansion (plies : List (M3 × ℝ × ℝ)) (i j : Fin 3) :
    (calculate_ABD_matrices plies).1 i j
        = (plies.map (fun p => p.1 i j * p.2.1)).sum ∧
    (calculate_ABD_matrices plies).2.1 i j
        = (1 / 2) *
          (plies.map (fun p => p.1 i j * (p.2.2 ^ 2 - (p.2.2 - p.2.1) ^ 2))).sum ∧
    (calculate_ABD_matrices plies).2.2 i j
        = (1 / 3) *
          (plies.map (fun p => p.1 i j * (p.2.2 ^ 3 - (p.2.2 - p.2.1) ^ 3))).sum := by
  have h := abdEntry_foldl i j plies 0 0 0
  refine ⟨?_, ?_, ?_⟩ <;>
    simp only [calculate_ABD_matrices, Matrix.of_apply, abdEntry, h, zero_add,
      ← List.sum_map_mul_left] <;>
    refine congrArg List.sum (List.map_congr_left fun p _ => ?_) <;>
    norm_num <;>
    ring

/-- C7: at fiber angle θ = 0 the stress transform `T` and strain transform
`T_e` are both exactly the 3×3 identity matrix, and the global reduced
stiffness `Q̄` equals the material-axis `Q` exactly. -/
theorem theta_zero_identity (Q : M3) :
    Tmat 0 = 1 ∧ Temat 0 = 1 ∧ Q_bar_of 0 Q = Q :=
  ⟨Tmat_zero, Temat_zero, Q_bar_of_zero Q⟩

/-- C4: for every real fiber angle θ and every material with `E11 ≠ 0`
(so that `V21 = V12·E22/E11` makes the material-axis `Q` symmetric), the
global reduced stiffness `Q̄ = T⁻¹·Q·T_e` is symmetric, exactly over ℝ. -/
theorem Q_bar_symmetric (θ : ℝ) (m : MaterialProperties) (hE : m.E11 ≠ 0) :
    (Q_bar_of θ (calculate_Q m))ᵀ = Q_bar_of θ (calculate_Q m) := by
  rw [Q_bar_of, Tmat_inv]
  calc ((Temat θ)ᵀ * calculate_Q m * Temat θ)ᵀ
      = (Temat θ)ᵀ * (calculate_Q m)ᵀ * Temat θ := by
        simp [Matrix.transpose_mul, Matrix.mul_assoc]
    _ = (Temat θ)ᵀ * calculate_Q m * Temat θ := by
        rw [calculate_Q_symm m hE]

/-- Witness for C4 at θ = 1 and the material (E11, E22, G12, V12) = (2, 1, 1, 1/4). -/
theorem Q_bar_symmetric_witness :
    (Q_bar_of 1 (calculate_Q ⟨2, 1, 1, 1 / 4⟩))ᵀ
      = Q_bar_of 1 (calculate_Q ⟨2, 1, 1, 1 / 4⟩) :=
  Q_bar_symmetric 1 ⟨2, 1, 1, 1 / 4⟩ (by norm_num)

lemma sum_elim_split (x : Fin 3 ⊕ Fin 3 → ℝ) :
    Sum.elim (fun i => x (Sum.inl i)) (fun i => x (Sum.inr i)) = x := by
  funext s
  cases s <;> rfl

/-- C2: for every laminate whose 6×6 ABD matrix `[[A,B],[B,D]]` is
non-singular and every load (3 forces, 3 moments), solving for the response
(midplane strains, curvatures) and then multiplying the ABD matrix by the
response vector reproduces the original load vector, exactly over ℝ. -/
theorem response_roundtrip (A B D : M3) (forces moments : V3)
    (h : (Matrix.fromBlocks A B B D).det ≠ 0) :
    ∃ p : V3 × V3,
      calculate_response A B D forces moments = .ok p ∧
      Matrix.fromBlocks A B B D *ᵥ Sum.elim p.1 p.2 = Sum.elim forces moments := by
  set abd := Matrix.fromBlocks A B B D with habd
  refine ⟨(fun i => (abd⁻¹ *ᵥ Sum.elim forces moments) (Sum.inl i),
           fun i => (abd⁻¹ *ᵥ Sum.elim forces moments) (Sum.inr i)), ?_, ?_⟩
  · simp [calculate_response, h, ← habd]
  · rw [sum_elim_split, Matrix.mulVec_mulVec,
      Matrix.mul_nonsing_inv _ (isUnit_iff_ne_zero.mpr h), Matrix.one_mulVec]

/-- Witness for C2 with A = D = 1, B = 0, load (1,2,3,4,5,6). -/
theorem response_roundtrip_witness :
    ∃ p : V3 × V3,
      calculate_response 1 0 1 ![1, 2, 3] ![4, 5, 6] = .ok p ∧
      Matrix.fromBlocks 1 0 0 1 *ᵥ Sum.elim p.1 p.2 = Sum.elim ![1, 2, 3] ![4, 5, 6] :=
  response_roundtrip 1 0 1 ![1, 2, 3] ![4, 5, 6]
    (by rw [Matrix.fromBlocks_one]; simp)

/-- C5: the response solve fails with the singular-matrix solve error
exactly when the assembled 6×6 ABD matrix is singular; for a non-singular
ABD it returns the solution `x` of `ABD·x = load` split into its first
three components (midplane strains) and last three (curvatures). -/
theorem response_solve_cases (A B D : M3) (forces moments : V3) :
    ((Matrix.fromBlocks A B B D).det = 0 →
      calculate_response A B D forces moments = .error .singularMatrix) ∧
    ((Matrix.fromBlocks A B B D).det ≠ 0 →
      ∃ x : Fin 3 ⊕ Fin 3 → ℝ,
        Matrix.fromBlocks A B B D *ᵥ x = Sum.elim forces moments ∧
        calculate_response A B D forces moments =
          .ok (fun i => x (Sum.inl i), fun i => x (Sum.inr i))) := by
  constructor
  · intro h
    simp [calculate_response, h]
  · intro h
    refine ⟨(Matrix.fromBlocks A B B D)⁻¹ *ᵥ Sum.elim forces moments, ?_, ?_⟩
    · rw [Matrix.mulVec_mulVec,
        Matrix.mul_nonsing_inv _ (isUnit_iff_ne_zero.mpr h), Matrix.one_mulVec]
    · simp [calculate_response, h]

/-- Witness for C5: a singular ABD (all-zero blocks) fails with the
singular-matrix error, and a non-singular ABD (A = D = 1, B = 0) returns
the split solution. -/
theorem response_solve_cases_witness :
    calculate_response 0 0 0 ![1, 2, 3] ![4, 5, 6] = .error .singularMatrix ∧
    (∃ x : Fin 3 ⊕ Fin 3 → ℝ,
      Matrix.fromBlocks 1 0 0 1 *ᵥ x = Sum.elim ![1, 2, 3] ![4, 5, 6] ∧
      calculate_response 1 0 1 ![1, 2, 3] ![4, 5, 6] =
        .ok (fun i => x (Sum.inl i), fun i => x (Sum.inr i))) :=
  ⟨(response_solve_cases 0 0 0 ![1, 2, 3] ![4, 5, 6]).1
      (by simp [Matrix.det_fromBlocks_zero₂₁, Matrix.det_fin_three]),
   (response_solve_cases 1 0 1 ![1, 2, 3] ![4, 5, 6]).2
      (by rw [Matrix.fromBlocks_one]; simp)⟩

lemma zLoop_fst_length (ts : List ℝ) : ∀ cur : ℝ, (zLoop ts cur).1.length = ts.length := by
  induction ts with
  | nil => intro cur; simp [zLoop]
  | cons t rest ih => intro cur; simp [zLoop, ih]

lemma zLoop_fst_gt (ts : List ℝ) :
    ∀ cur : ℝ, (∀ x ∈ ts, 0 < x) → ∀ z ∈ (zLoop ts cur).1, cur < z := by
  induction ts with
  | nil => intro cur _ z hz; simp [zLoop] at hz
  | cons t rest ih =>
    intro cur hpos z hz
    have ht : 0 < t := hpos t (List.mem_cons_self t rest)
    simp only [zLoop, List.mem_cons] at hz
    rcases hz with rfl | hz
    · linarith
    · have := ih (cur + t) (fun x hx => hpos x (List.mem_cons_of_mem _ hx)) z hz
      linarith

lemma zLoop_fst_pairwise (ts : List ℝ) :
    ∀ cur : ℝ, (∀ x ∈ ts, 0 < x) → (zLoop ts cur).1.Pairwise (· < ·) := by
  induction ts with
  | nil => intro cur _; simp [zLoop]
  | cons t rest ih =>
    intro cur hpos
    have hrest : ∀ x ∈ rest, 0 < x := fun x hx => hpos x (List.mem_cons_of_mem _ hx)
    simp only [zLoop]
    exact List.Pairwise.cons
      (fun z hz => zLoop_fst_gt rest (cur + t) hrest z hz)
      (ih (cur + t) hrest)

lemma zLoop_fst_getD_zero (t : ℝ) (rest : List ℝ) (cur : ℝ) :
    (zLoop (t :: rest) cur).1.getD 0 0 = cur + t := by
  simp [zLoop]

lemma zLoop_succ_diff (ts : List ℝ) :
    ∀ (cur : ℝ) (i : ℕ), i + 1 < ts.length →
      (zLoop ts cur).1.getD (i + 1) 0 - ts.getD (i + 1) 0 = (zLoop ts cur).1.getD i 0 := by
  induction ts with
  | nil => intro cur i h; simp at h
  | cons t rest ih =>
    intro cur i h
    match i with
    | 0 =>
      match rest, h with
      | r :: rr, _ => simp [zLoop]
    | i + 1 =>
      have hrest : i + 1 < rest.length := by simpa using h
      simpa [zLoop] using ih (cur + t) i hrest

/-- C8: for every laminate with all ply thicknesses positive, the z-top
coordinates are strictly increasing in ply index, the first ply's bottom
surface `z_top,1 − t_1` is minus half the total thickness, and each later
ply's bottom surface `z_top,i − t_i` is the previous ply's top surface. -/
theorem z_coordinate_invariants (ts zs zms : List ℝ)
    (hpos : ∀ x ∈ ts, 0 < x)
    (h : calculate_z_coordinates ts ts.length = .ok (zs, zms)) :
    zs.Pairwise (· < ·) ∧
    (0 < ts.length → zs.getD 0 0 - ts.getD 0 0 = -(ts.sum) / 2) ∧
    (∀ i : ℕ, i + 1 < ts.length →
      zs.getD (i + 1) 0 - ts.getD (i + 1) 0 = zs.getD i 0) := by
  have hz : zs = (zLoop ts (-(ts.sum) / 2)).1 := by
    simp only [calculate_z_coordinates, lt_irrefl, if_false, List.take_length] at h
    exact (congrArg Prod.fst (Except.ok.inj h)).symm
  refine ⟨?_, ?_, ?_⟩
  · rw [hz]
    exact zLoop_fst_pairwise ts _ hpos
  · intro hlen
    match ts, hlen with
    | t :: rest, _ =>
      rw [hz, zLoop_fst_getD_zero]
      simp
  · intro i hi
    rw [hz]
    exact zLoop_succ_diff ts _ i hi

/-- Witness for C8 with thicknesses [1, 2]: z-tops are [-1/2, 3/2]. -/
theorem z_coordinate_invariants_witness :
    ([-(1 : ℝ)/2, 3/2] : List ℝ).Pairwise (· < ·) ∧
    (0 < ([(1 : ℝ), 2] : List ℝ).length →
      ([-(1 : ℝ)/2, 3/2] : List ℝ).getD 0 0 - ([(1 : ℝ), 2] : List ℝ).getD 0 0 =
        -(([(1 : ℝ), 2] : List ℝ).sum) / 2) ∧
    (∀ i : ℕ, i + 1 < ([(1 : ℝ), 2] : List ℝ).length →
      ([-(1 : ℝ)/2, 3/2] : List ℝ).getD (i + 1) 0 - ([(1 : ℝ), 2] : List ℝ).getD (i + 1) 0 =
        ([-(1 : ℝ)/2, 3/2] : List ℝ).getD i 0) :=
  z_coordinate_invariants [1, 2] [-(1 : ℝ)/2, 3/2] [-1, 1/2]
    (by intro x hx; simp only [List.mem_cons, List.not_mem_nil, or_false] at hx; rcases hx with rfl | rfl <;> norm_num)
    (by norm_num [calculate_z_coordinates, zLoop])

/-- The index actually addressed by a Python subscript `l[i]` on a sequence
of length `len`: `none` when the subscript raises `IndexError`. -/
def pyIdx (len : ℕ) (i : ℤ) : Option ℕ :=
  if 0 ≤ i ∧ i < (len : ℤ) then some i.toNat
  else if -(len : ℤ) ≤ i ∧ i < 0 then some (i + len).toNat
  else none

lemma pyIdx_lt (len : ℕ) (i : ℤ) (n : ℕ) (h : pyIdx len i = some n) : n < len := by
  unfold pyIdx at h
  split_ifs at h with h1 h2 <;> injection h with h' <;> omega

lemma pyIdx_of_pos (len : ℕ) (i : ℤ) (h0 : 0 ≤ i) (h1 : i < (len : ℤ)) :
    pyIdx len i = some i.toNat := by
  unfold pyIdx
  rw [if_pos ⟨h0, h1⟩]

lemma pyIdx_of_neg (len : ℕ) (i : ℤ) (h0 : -(len : ℤ) ≤ i) (h1 : i < 0) :
    pyIdx len i = some (i + len).toNat := by
  unfold pyIdx
  rw [if_neg (by omega), if_pos ⟨h0, h1⟩]

lemma pyIdx_of_out (len : ℕ) (i : ℤ) (h : i < -(len : ℤ) ∨ (len : ℤ) ≤ i) :
    pyIdx len i = none := by
  unfold pyIdx
  rw [if_neg (by omega), if_neg (by omega)]

lemma pyGet_eq_of_pyIdx_some {α : Type} (l : List α) (i : ℤ) (n : ℕ) (d : α)
    (h : pyIdx l.length i = some n) : pyGet l i = .ok (l.getD n d) := by
  unfold pyIdx at h
  unfold pyGet
  split_ifs at h ⊢ with h1 h2 <;> injection h with h'
  · subst h'
    rw [List.getD_eq_get l d (by omega)]
  · subst h'
    rw [List.getD_eq_get l d (by omega)]

lemma pyGet_eq_of_pyIdx_none {α : Type} (l : List α) (i : ℤ)
    (h : pyIdx l.length i = none) : pyGet l i = .error .indexError := by
  unfold pyIdx at h
  unfold pyGet
  split_ifs at h ⊢ with h1 h2 <;> simp_all

lemma calculate_ply_some (k : ℕ) (z_m : List ℝ) (Qb Tp Te : List M3)
    (ε κ : V3) (n : ℤ) (j : ℕ)
    (hz : z_m.length = k) (hq : Qb.length = k) (ht : Tp.length = k)
    (hte : Te.length = k) (hidx : pyIdx k (n - 1) = some j) :
    calculate_ply_strains_stresses z_m Qb Tp Te ε κ n =
      .ok (ε + z_m.getD j 0 • κ,
           Qb.getD j 0 *ᵥ (ε + z_m.getD j 0 • κ),
           Te.getD j 0 *ᵥ (ε + z_m.getD j 0 • κ),
           Tp.getD j 0 *ᵥ (Qb.getD j 0 *ᵥ (ε + z_m.getD j 0 • κ))) := by
  unfold calculate_ply_strains_stresses
  dsimp only
  rw [pyGet_eq_of_pyIdx_some z_m (n - 1) j 0 (by rw [hz]; exact hidx),
      pyGet_eq_of_pyIdx_some Qb (n - 1) j 0 (by rw [hq]; exact hidx),
      pyGet_eq_of_pyIdx_some Te (n - 1) j 0 (by rw [hte]; exact hidx),
      pyGet_eq_of_pyIdx_some Tp (n - 1) j 0 (by rw [ht]; exact hidx)]
  rfl

lemma calculate_ply_none (z_m : List ℝ) (Qb Tp Te : List M3)
    (ε κ : V3) (n : ℤ)
    (hidx : pyIdx z_m.length (n - 1) = none) :
    calculate_ply_strains_stresses z_m Qb Tp Te ε κ n = .error .indexError := by
  unfold calculate_ply_strains_stresses
  dsimp only
  rw [pyGet_eq_of_pyIdx_none z_m (n - 1) hidx]
  rfl

/-- C6 counterexample: the claim says ply recovery fails with an
index-range error for every `n < 1`, but on a two-ply laminate state the
call with `n = 0` succeeds: Python resolves the subscript `n - 1 = -1` by
negative indexing and returns the last ply's data (here `z_mid = 7`, the
second ply's value, visibly enters the returned strain). -/
theorem ply_recovery_zero_index_no_error :
    calculate_ply_strains_stresses [5, 7] [1, 1] [1, 1] [1, 1]
        ![0, 0, 0] ![1, 0, 0] 0 =
      .ok (![7, 0, 0], ![7, 0, 0], ![7, 0, 0], ![7, 0, 0]) := by
  rw [calculate_ply_some 2 [5, 7] [1, 1] [1, 1] [1, 1] ![0, 0, 0] ![1, 0, 0] 0 1
      rfl rfl rfl rfl (pyIdx_of_neg 2 (0 - 1) (by norm_num) (by norm_num))]
  congr 1
  refine Prod.ext ?_ (Prod.ext ?_ (Prod.ext ?_ ?_)) <;> simp

/-- C6 (amended): ply recovery performs no explicit range check: for
`1 ≤ n ≤ k` it returns `(ε + z_mid·κ, Q̄·gs, T_e·gs, T·gσ)` for ply `n`;
for `1 − k ≤ n ≤ 0` Python's negative indexing silently returns the data
of ply `n + k`; only for `n > k` or `n < 1 − k` does the call fail, and
the error is the underlying Python `IndexError`, not a dedicated
`PlyIndexOutOfRange`. -/
theorem ply_recovery_behavior (k : ℕ) (z_m : List ℝ) (Qb Tp Te : List M3)
    (ε κ : V3) (n : ℤ)
    (hz : z_m.length = k) (hq : Qb.length = k) (ht : Tp.length = k)
    (hte : Te.length = k) :
    (1 ≤ n → n ≤ (k : ℤ) →
      calculate_ply_strains_stresses z_m Qb Tp Te ε κ n =
        .ok (ε + z_m.getD (n - 1).toNat 0 • κ,
             Qb.getD (n - 1).toNat 0 *ᵥ (ε + z_m.getD (n - 1).toNat 0 • κ),
             Te.getD (n - 1).toNat 0 *ᵥ (ε + z_m.getD (n - 1).toNat 0 • κ),
             Tp.getD (n - 1).toNat 0 *ᵥ
               (Qb.getD (n - 1).toNat 0 *ᵥ (ε + z_m.getD (n - 1).toNat 0 • κ)))) ∧
    (1 - (k : ℤ) ≤ n → n ≤ 0 →
      calculate_ply_strains_stresses z_m Qb Tp Te ε κ n =
        .ok (ε + z_m.getD (n - 1 + k).toNat 0 • κ,
             Qb.getD (n - 1 + k).toNat 0 *ᵥ (ε + z_m.getD (n - 1 + k).toNat 0 • κ),
             Te.getD (n - 1 + k).toNat 0 *ᵥ (ε + z_m.getD (n - 1 + k).toNat 0 • κ),
             Tp.getD (n - 1 + k).toNat 0 *ᵥ
               (Qb.getD (n - 1 + k).toNat 0 *ᵥ (ε + z_m.getD (n - 1 + k).toNat 0 • κ)))) ∧
    ((n < 1 - (k : ℤ) ∨ (k : ℤ) < n) →
      calculate_ply_strains_stresses z_m Qb Tp Te ε κ n = .error .indexError) := by
  refine ⟨fun h1 h2 => ?_, fun h1 h2 => ?_, fun h => ?_⟩
  · exact calculate_ply_some k z_m Qb Tp Te ε κ n (n - 1).toNat hz hq ht hte
      (pyIdx_of_pos k (n - 1) (by omega) (by omega))
  · exact calculate_ply_some k z_m Qb Tp Te ε κ n (n - 1 + k).toNat hz hq ht hte
      (pyIdx_of_neg k (n - 1) (by omega) (by omega))
  · exact calculate_ply_none z_m Qb Tp Te ε κ n
      (by rw [hz]; exact pyIdx_of_out k (n - 1) (by omega))

/-- Witness for C6 (amended) on a one-ply state with identity matrices:
`n = 1` recovers ply 1, `n = 0` silently recovers ply 1 by negative
indexing, and `n = 2` fails with `IndexError`. -/
theorem ply_recovery_behavior_witness :
    calculate_ply_strains_stresses [0] [1] [1] [1] ![1, 2, 3] ![0, 0, 0] 1 =
      .ok (![1, 2, 3], ![1, 2, 3], ![1, 2, 3], ![1, 2, 3]) ∧
    calculate_ply_strains_stresses [0] [1] [1] [1] ![1, 2, 3] ![0, 0, 0] 0 =
      .ok (![1, 2, 3], ![1, 2, 3], ![1, 2, 3], ![1, 2, 3]) ∧
    calculate_ply_strains_stresses [0] [1] [1] [1] ![1, 2, 3] ![0, 0, 0] 2 =
      .error .indexError := by
  refine ⟨?_, ?_, ?_⟩
  · have h := (ply_recovery_behavior 1 [0] [1] [1] [1] ![1, 2, 3] ![0, 0, 0] 1
      rfl rfl rfl rfl).1 (by norm_num) (by norm_num)
    simpa using h
  · have h := (ply_recovery_behavior 1 [0] [1] [1] [1] ![1, 2, 3] ![0, 0, 0] 0
      rfl rfl rfl rfl).2.1 (by norm_num) (by norm_num)
    simpa using h
  · exact (ply_recovery_behavior 1 [0] [1] [1] [1] ![1, 2, 3] ![0, 0, 0] 2
      rfl rfl rfl rfl).2.2 (by norm_num)

lemma getD_map_eq (f : ℝ → M3) (θs : List ℝ) (j : ℕ) (hj : j < θs.length)
    (d : M3) : (θs.map f).getD j d = f (θs.getD j 0) := by
  induction θs generalizing j with
  | nil => simp at hj
  | cons a l ih =>
    match j with
    | 0 => simp
    | j + 1 => simpa using ih j (by simpa using hj)

/-- C9: for every ply index and every (midplane strain, curvature) input to
ply recovery on a laminate's per-ply state (each ply's `Q̄`, `T`, `T_e`
generated from the same fiber angle and material `Q`), the recovered local
stress equals `Q` applied to the recovered local strain, exactly over ℝ,
because `T·Q̄ = Q·T_e`. -/
theorem local_constitutive_law (θs z_m : List ℝ) (Q : M3) (ε κ : V3) (n : ℤ)
    (gstrain gstress lstrain lstress : V3)
    (hz : z_m.length = θs.length)
    (h : calculate_ply_strains_stresses z_m
          (θs.map (fun th => Q_bar_of th Q)) (θs.map Tmat) (θs.map Temat)
          ε κ n = .ok (gstrain, gstress, lstrain, lstress)) :
    lstress = Q *ᵥ lstrain := by
  cases hidx : pyIdx θs.length (n - 1) with
  | none =>
    rw [calculate_ply_none z_m _ _ _ ε κ n (by rw [hz]; exact hidx)] at h
    cases h
  | some j =>
    have hj : j < θs.length := pyIdx_lt _ _ _ hidx
    rw [calculate_ply_some θs.length z_m _ _ _ ε κ n j hz (by simp) (by simp)
      (by simp) hidx] at h
    injection h with h'
    simp only [Prod.mk.injEq] at h'
    obtain ⟨h1, h2, h3, h4⟩ := h'
    subst h3
    subst h4
    rw [getD_map_eq Tmat θs j hj, getD_map_eq Temat θs j hj,
      getD_map_eq (fun th => Q_bar_of th Q) θs j hj,
      Matrix.mulVec_mulVec, Matrix.mulVec_mulVec, Tmat_mul_Q_bar]

/-- Witness for C9 on a one-ply state at θ = 0 with Q = 1. -/
theorem local_constitutive_law_witness :
    (![1, 2, 3] : V3) = (1 : M3) *ᵥ ![1, 2, 3] :=
  local_constitutive_law [0] [0] 1 ![1, 2, 3] ![0, 0, 0] 1
    ![1, 2, 3] ![1, 2, 3] ![1, 2, 3] ![1, 2, 3] rfl
    (by
      rw [calculate_ply_some 1 [0] _ _ _ ![1, 2, 3] ![0, 0, 0] 1 0 rfl
        (by simp) (by simp) (by simp) (pyIdx_of_pos 1 0 (by norm_num) (by norm_num))]
      norm_num [Q_bar_of_zero, Tmat_zero, Temat_zero, Matrix.one_mulVec])

lemma calculate_ABD_matrices_nil : calculate_ABD_matrices [] = (0, 0, 0) := by
  refine Prod.ext ?_ (Prod.ext ?_ ?_) <;> ext i j <;>
    simp [calculate_ABD_matrices, abdEntry]

/-- C3 counterexample: a zero-ply laminate does not fail at construction
time: `__init__` completes successfully, so no `InvalidLayup` (or any
other error) is raised for an empty layup. -/
theorem zero_ply_constructor_succeeds :
    (initLaminateAnalysis [] (.ofList []) ⟨2, 1, 1, 0⟩).isOk = true := by
  simp only [initLaminateAnalysis]
  rw [if_neg (by norm_num), if_neg (by norm_num [calc_V21])]
  simp [calculate_z_coordinates, zLoop, Except.isOk, Except.toBool]

/-- C3 (amended): the constructor performs no layup validation and defines
no `InvalidLayup` error.  A zero-ply laminate constructs successfully with
`A = B = D = 0`; a laminate with 5 angles and 4 thicknesses fails with the
Python `IndexError` raised inside the z-coordinate loop — that is, after
the material matrix `Q` has already been computed, not before any matrix
computation. -/
theorem constructor_no_layup_validation (m : MaterialProperties)
    (a1 a2 a3 a4 a5 t1 t2 t3 t4 : ℝ)
    (hE : m.E11 ≠ 0) (hden : 1 - m.V12 * calc_V21 m ≠ 0) :
    (∃ L : LaminateAnalysis,
      initLaminateAnalysis [] (.ofList []) m = .ok L ∧
      L.A = 0 ∧ L.B = 0 ∧ L.D = 0) ∧
    initLaminateAnalysis [a1, a2, a3, a4, a5] (.ofList [t1, t2, t3, t4]) m =
      .error .indexError := by
  constructor
  · have hmk : initLaminateAnalysis [] (.ofList []) m =
        .ok ⟨[], [], [], 0, m.E11, m.E22, m.G12, m.V12, calc_V21 m,
             calculate_Q m, [], [], [], [], [], 0, 0, 0⟩ := by
      simp only [initLaminateAnalysis]
      rw [if_neg hE, if_neg hden]
      simp [calculate_z_coordinates, zLoop, calculate_ABD_matrices_nil]
    exact ⟨_, hmk, rfl, rfl, rfl⟩
  · simp only [initLaminateAnalysis]
    rw [if_neg hE, if_neg hden]
    simp [calculate_z_coordinates]

/-- Witness for C3 (amended) with the material (2, 1, 1, 0). -/
theorem constructor_no_layup_validation_witness :
    (∃ L : LaminateAnalysis,
      initLaminateAnalysis [] (.ofList []) ⟨2, 1, 1, 0⟩ = .ok L ∧
      L.A = 0 ∧ L.B = 0 ∧ L.D = 0) ∧
    initLaminateAnalysis [10, 20, 30, 40, 50] (.ofList [1, 1, 1, 1]) ⟨2, 1, 1, 0⟩ =
      .error .indexError :=
  constructor_no_layup_validation ⟨2, 1, 1, 0⟩ 10 20 30 40 50 1 1 1 1
    (by norm_num) (by norm_num [calc_V21])

/-- C10: passing a single number as `thicknesses` assigns that thickness to
every one of the k plies (`np.full(len(self.angles), thicknesses)`), so the
constructed laminate state — z-coordinates, transforms, `Q̄` list, A, B, D —
is identical to the laminate built from an explicit list of k copies of
that thickness. -/
theorem scalar_thickness_broadcast (layup_angles : List ℝ) (c : ℝ)
    (m : MaterialProperties) :
    initLaminateAnalysis layup_angles (.scalar c) m =
      initLaminateAnalysis layup_angles
        (.ofList (List.replicate layup_angles.length c)) m := rfl
